import Mathlib

/-!
Verification of the URL normalizer and embedded-content message bridge of the
`sb1-jjyj9e5s` browser-screen repository.

Strings are modelled as `List Char`.  The two pieces of logic under study are

* `formatUrl` — the URL/search-input normalizer of the browser screen
  (`formatUrl` in the screen component), together with the JavaScript string
  primitives it uses (`trim`, `includes`, `split(' ')`, the
  `/^https?:\/\//` strip, and `encodeURIComponent`);
* the message bridge of `PlatformWebView.tsx` — the `handleMessage` /
  `handleGoogleAuth` / `handleCallback` listeners of the web substrate, the
  `handleMessage` of the native substrate, and the load/error/retry state of
  the web view component.
-/

namespace BrowserSpec

/-! ## JavaScript string primitives -/

/-- The whitespace class of the JavaScript `String.prototype.trim`:
ASCII whitespace, NBSP, BOM, the Unicode `Zs` separators and the two
line separators. -/
def isJsWhitespace (c : Char) : Bool :=
  c = ' ' || c = '\t' || c = '\n' || c = '\r' ||
  c = Char.ofNat 0x0B || c = Char.ofNat 0x0C || c = Char.ofNat 0xA0 ||
  c = Char.ofNat 0xFEFF || c = Char.ofNat 0x1680 ||
  (0x2000 ≤ c.toNat && c.toNat ≤ 0x200A) ||
  c = Char.ofNat 0x2028 || c = Char.ofNat 0x2029 ||
  c = Char.ofNat 0x202F || c = Char.ofNat 0x205F || c = Char.ofNat 0x3000

/-- JavaScript `inputUrl.trim()`: drop leading and trailing whitespace. -/
def jsTrim (s : List Char) : List Char :=
  ((s.dropWhile isJsWhitespace).reverse.dropWhile isJsWhitespace).reverse

/-- Decidable test that `pat` is a prefix of `s`, for the anchored regex and
for `includes` below. -/
def charsPre : List Char → List Char → Bool
  | [], _ => true
  | _ :: _, [] => false
  | a :: as, b :: bs => a = b && charsPre as bs

/-- JavaScript `s.includes(pat)` for a string pattern: `pat` occurs as a
contiguous substring of `s`. -/
def charsSub (pat : List Char) : List Char → Bool
  | [] => pat.isEmpty
  | b :: bs => charsPre pat (b :: bs) || charsSub pat bs

/-! ## encodeURIComponent / decodeURIComponent -/

/-- The characters `encodeURIComponent` leaves unescaped:
`A-Z a-z 0-9 - _ . ! ~ * ' ( )`. -/
def isUnreservedChar (c : Char) : Bool :=
  c.isAlphanum || c = '-' || c = '_' || c = '.' || c = '!' || c = '~' ||
  c = '*' || c = Char.ofNat 39 || c = '(' || c = ')'

/-- Uppercase hexadecimal digit for `n < 16`. -/
def hexDigitChar (n : Nat) : Char :=
  if n < 10 then Char.ofNat (48 + n) else Char.ofNat (55 + n)

/-- Value of a hexadecimal digit, accepting both cases as percent-decoding
does. -/
def hexCharVal (c : Char) : Option Nat :=
  if 48 ≤ c.toNat ∧ c.toNat ≤ 57 then some (c.toNat - 48)
  else if 65 ≤ c.toNat ∧ c.toNat ≤ 70 then some (c.toNat - 55)
  else if 97 ≤ c.toNat ∧ c.toNat ≤ 102 then some (c.toNat - 87)
  else none

/-- UTF-8 encoding of one scalar value, as a list of byte values. -/
def utf8EncodeChar (c : Char) : List Nat :=
  if c.toNat < 0x80 then [c.toNat]
  else if c.toNat < 0x800 then [0xC0 + c.toNat / 64, 0x80 + c.toNat % 64]
  else if c.toNat < 0x10000 then
    [0xE0 + c.toNat / 4096, 0x80 + c.toNat / 64 % 64, 0x80 + c.toNat % 64]
  else
    [0xF0 + c.toNat / 262144, 0x80 + c.toNat / 4096 % 64,
      0x80 + c.toNat / 64 % 64, 0x80 + c.toNat % 64]

/-- Percent-encoding of one byte as `encodeURIComponent` emits it: unreserved
ASCII bytes stand for themselves, every other byte becomes `%XX` with
uppercase hexadecimal digits. -/
def percentEncodeByte (b : Nat) : List Char :=
  if b < 128 && isUnreservedChar (Char.ofNat b) then [Char.ofNat b]
  else ['%', hexDigitChar (b / 16), hexDigitChar (b % 16)]

/-- JavaScript `encodeURIComponent`: UTF-8-encode each character and
percent-escape every byte that is not an unreserved ASCII character. -/
def encodeURIComponent (s : List Char) : List Char :=
  s.flatMap fun c => (utf8EncodeChar c).flatMap percentEncodeByte

/-- First phase of percent-decoding: turn `%XX` escapes into byte values and
every literal character into its UTF-8 bytes; `none` on a malformed escape. -/
def percentDecodeBytes : List Char → Option (List Nat)
  | [] => some []
  | c :: rest =>
    if c = '%' then
      match rest with
      | h1 :: h2 :: rest' =>
        match hexCharVal h1, hexCharVal h2 with
        | some a, some b => (percentDecodeBytes rest').map fun bs => (16 * a + b) :: bs
        | _, _ => none
      | _ => none
    else (percentDecodeBytes rest).map fun bs => utf8EncodeChar c ++ bs

/-- UTF-8 decoding of a byte list, one byte at a time: `need` continuation
bytes are still expected for the code point accumulated so far in `acc`,
whose final value must be at least `minv` (no overlong encodings), not a
surrogate and at most `0x10FFFF`.  Truncated sequences, stray continuation
bytes and invalid lead bytes are rejected. -/
def utf8DecodeAux : Nat → Nat → Nat → List Nat → Option (List Char)
  | 0, _, _, [] => some []
  | 0, _, _, b :: rest =>
    if b < 0x80 then
      (utf8DecodeAux 0 0 0 rest).map fun cs => Char.ofNat b :: cs
    else if b < 0xC0 then none
    else if b < 0xE0 then utf8DecodeAux 1 (b - 0xC0) 0x80 rest
    else if b < 0xF0 then utf8DecodeAux 2 (b - 0xE0) 0x800 rest
    else if b < 0xF8 then utf8DecodeAux 3 (b - 0xF0) 0x10000 rest
    else none
  | _ + 1, _, _, [] => none
  | 1, acc, minv, b :: rest =>
    if 0x80 ≤ b ∧ b < 0xC0 then
      if minv ≤ acc * 64 + (b - 0x80) ∧
          (acc * 64 + (b - 0x80) < 0xD800 ∨ 0xDFFF < acc * 64 + (b - 0x80)) ∧
          acc * 64 + (b - 0x80) < 0x110000 then
        (utf8DecodeAux 0 0 0 rest).map fun cs =>
          Char.ofNat (acc * 64 + (b - 0x80)) :: cs
      else none
    else none
  | n + 2, acc, minv, b :: rest =>
    if 0x80 ≤ b ∧ b < 0xC0 then
      utf8DecodeAux (n + 1) (acc * 64 + (b - 0x80)) minv rest
    else none

/-- UTF-8 decoding of a byte list, starting in the ground state. -/
def utf8DecodeBytes (l : List Nat) : Option (List Char) :=
  utf8DecodeAux 0 0 0 l

/-- JavaScript `decodeURIComponent`: resolve percent escapes to bytes, then
UTF-8-decode the byte sequence. -/
def decodeURIComponent (s : List Char) : Option (List Char) :=
  (percentDecodeBytes s).bind utf8DecodeBytes

/-! ## The URL normalizer `formatUrl` -/

def schemeHttps : List Char := "https://".toList

def schemeHttp : List Char := "http://".toList

def schemeMark : List Char := "://".toList

def searchUrlBase : List Char := "https://www.google.com/search?q=".toList

/-- The search-query test of `formatUrl`, applied to the trimmed input:
`!cleanUrl.includes('.') || (cleanUrl.includes(' ') && cleanUrl.split(' ').length > 1)`. -/
def searchCond (t : List Char) : Bool :=
  !t.contains '.' || (t.contains ' ' && (t.splitOn ' ').length > 1)

/-- The anchored strip `cleanUrl.replace(/^https?:\/\//, '')`: remove one
leading `https://` or `http://`. -/
def stripHttpScheme (t : List Char) : List Char :=
  if charsPre schemeHttps t then t.drop 8
  else if charsPre schemeHttp t then t.drop 7
  else t

/-- The `formatUrl` function of the browser screen: empty-after-trim input
yields the empty destination; otherwise a search-query URL when `searchCond`
holds of the trimmed input, else the address branch (strip a leading
`http(s)://`, then prepend `https://` when no `://` remains). -/
def formatUrl (inputUrl : List Char) : List Char :=
  let t := jsTrim inputUrl
  if t = [] then []
  else if searchCond t then searchUrlBase ++ encodeURIComponent t
  else
    let r := stripHttpScheme t
    if charsSub schemeMark r then r else schemeHttps ++ r

/-- Classification of an input by the branch `formatUrl` takes on it. -/
inductive UrlClass
  | empty
  | search
  | address
deriving DecidableEq

/-- Which branch of `formatUrl` an input is routed to. -/
def classifyUrl (inputUrl : List Char) : UrlClass :=
  let t := jsTrim inputUrl
  if t = [] then .empty
  else if searchCond t then .search
  else .address

/-! ## The message bridge of `PlatformWebView.tsx`

The web substrate has two kinds of `window` message listeners: the permanent
`handleMessage` registered on mount, and one `handleCallback` instance
registered by each `handleGoogleAuth` invocation (removed only when that
instance sees a `GOOGLE_AUTH_CALLBACK`).  A message event is delivered to
every listener registered before it was dispatched. -/

/-- The single trusted origin of the bridge. -/
def trustedOrigin : List Char := "https://enter.vibz.world".toList

/-- The wildcard target origin, which the bridge never uses. -/
def wildcardTarget : List Char := "*".toList

def googleAuthRequestTag : List Char := "GOOGLE_AUTH_REQUEST".toList

def googleAuthCallbackTag : List Char := "GOOGLE_AUTH_CALLBACK".toList

def googleAuthResponseTag : List Char := "GOOGLE_AUTH_RESPONSE".toList

/-- The auth payload carried in `data` fields: the token/user/error record
produced by the authentication flow.  All fields optional, as on the wire. -/
structure AuthData where
  accessToken : Option (List Char)
  idToken : Option (List Char)
  userInfo : Option (List Char)
  errorMsg : Option (List Char)
deriving DecidableEq

/-- A message body: the `type`, `success` and `data` properties an event's
`data` object may carry (absent properties are `none`). -/
structure MessageData where
  tag : Option (List Char)
  success : Option Bool
  payload : Option AuthData
deriving DecidableEq

/-- A `window` message event on the web substrate: its origin and its `data`
object (`none` when `event.data` is not an object). -/
structure MessageEvent where
  origin : List Char
  data : Option MessageData
deriving DecidableEq

/-- A message posted into the embedded iframe via
`contentWindow.postMessage`. -/
structure PostedMessage where
  tag : List Char
  success : Option Bool
  payload : Option AuthData
  targetOrigin : List Char
deriving DecidableEq

/-- The permanent `handleMessage` listener of `WebWebView`: drop events whose
origin is not the trusted origin, invoke `handleGoogleAuth` on a
`GOOGLE_AUTH_REQUEST`.  Returns whether `handleGoogleAuth` is invoked. -/
def webHandleMessage (ev : MessageEvent) : Bool :=
  if ev.origin = trustedOrigin then
    match ev.data with
    | some d => d.tag = some googleAuthRequestTag
    | none => false
  else false

/-- One registered `handleCallback` listener, closed over
`window.location.origin`: on a `GOOGLE_AUTH_CALLBACK` from that origin it
posts a `GOOGLE_AUTH_RESPONSE` with the event's `success` and `data` into the
iframe, addressed to the trusted origin, and removes itself.  Returns the
posted messages and whether the listener removed itself. -/
def handleCallback (locationOrigin : List Char) (ev : MessageEvent) :
    List PostedMessage × Bool :=
  if ev.origin = locationOrigin then
    match ev.data with
    | some d =>
      if d.tag = some googleAuthCallbackTag then
        ([{ tag := googleAuthResponseTag, success := d.success,
            payload := d.payload, targetOrigin := trustedOrigin }], true)
      else ([], false)
    | none => ([], false)
  else ([], false)

/-- Bridge listener state: how many `handleCallback` instances are currently
registered on `window`. -/
structure BridgeState where
  pendingCallbacks : Nat
deriving DecidableEq

/-- Everything observable about dispatching one message event: the new
listener state, how many times the external auth flow was started (a new auth
window opened), and the messages posted into the iframe. -/
structure DispatchResult where
  state : BridgeState
  authInvocations : Nat
  posts : List PostedMessage
deriving DecidableEq

/-- Dispatch of one `window` message event to all currently registered
listeners: `handleMessage` may invoke `handleGoogleAuth` (registering one new
`handleCallback`), and each registered `handleCallback` instance reacts
independently; a matching callback removes every instance that saw it. -/
def dispatchMessage (locationOrigin : List Char) (st : BridgeState)
    (ev : MessageEvent) : DispatchResult :=
  let authInvoked := webHandleMessage ev
  let cb := handleCallback locationOrigin ev
  { state :=
      { pendingCallbacks :=
          (if cb.2 then 0 else st.pendingCallbacks) +
            (if authInvoked then 1 else 0) }
    authInvocations := if authInvoked then 1 else 0
    posts := (List.replicate st.pendingCallbacks cb.1).flatten }

/-- Dispatch of a sequence of message events, accumulating auth invocations
and posted messages. -/
def dispatchMessages (locationOrigin : List Char) (st : BridgeState) :
    List MessageEvent → DispatchResult
  | [] => { state := st, authInvocations := 0, posts := [] }
  | ev :: evs =>
    let r := dispatchMessage locationOrigin st ev
    let rs := dispatchMessages locationOrigin r.state evs
    { state := rs.state
      authInvocations := r.authInvocations + rs.authInvocations
      posts := r.posts ++ rs.posts }

/-- A message event on the native substrate.  `react-native-webview` exposes
no sender origin to `onMessage`; `pageOrigin` records the origin of the page
that posted, which the handler cannot and does not inspect.  `parsedData` is
the outcome of `JSON.parse(event.nativeEvent.data)`, `none` when parsing
throws (the handler catches and does nothing). -/
structure NativeMessageEvent where
  pageOrigin : List Char
  parsedData : Option MessageData
deriving DecidableEq

/-- The `handleMessage` of the native branch of `PlatformWebView`: parse the
payload and invoke `handleGoogleAuthRequest` on a `GOOGLE_AUTH_REQUEST`,
with no origin restriction.  Returns whether the auth flow is invoked. -/
def nativeHandleMessage (ev : NativeMessageEvent) : Bool :=
  match ev.parsedData with
  | some d => d.tag = some googleAuthRequestTag
  | none => false

/-! ## Load/error state of `WebWebView` and of the screen -/

/-- The component state of `WebWebView` that its lifecycle handlers mutate:
`loading`, `error` and `currentUrl`. -/
structure WebViewState where
  loading : Bool
  error : Option (List Char)
  currentUrl : List Char
deriving DecidableEq

/-- The fixed message `handleError` stores. -/
def webErrorMessage : List Char :=
  "This website cannot be displayed in the browser due to security restrictions. Try opening it in a new tab.".toList

/-- The events that mutate `WebWebView` state: the iframe `onLoad` /
`onError` handlers, `handleLoadStart`, the Try Again button click of the
error view, and the effect run when `source.uri` changes. -/
inductive WebViewEvent
  | loadStart
  | load
  | loadError
  | retryClick
  | sourceChange (uri : List Char)

/-- The state updates of `WebWebView`, one case per handler, as written in
the source. -/
def webViewStep : WebViewState → WebViewEvent → WebViewState
  | st, .loadStart => { st with loading := true, error := none }
  | st, .load => { st with loading := false, error := none }
  | st, .loadError => { st with loading := false, error := some webErrorMessage }
  | st, .retryClick => { st with error := none, loading := true }
  | _, .sourceChange uri => { currentUrl := uri, loading := true, error := none }

/-- The spec's LoadState enumeration. -/
inductive LoadState
  | idle
  | loading
  | loaded
  | errored (msg : List Char)
deriving DecidableEq

/-- The LoadState a `WebViewState` presents: an error means `errored`,
otherwise the loading flag distinguishes `loading` from `loaded`. -/
def loadStateOf (st : WebViewState) : LoadState :=
  match st.error with
  | some m => .errored m
  | none => if st.loading then .loading else .loaded

/-- The screen state of the browser component: the input-field text `url`,
the Destination `currentUrl`, the loading flag, the error, and whether the
web view is shown. -/
structure ScreenState where
  url : List Char
  currentUrl : List Char
  loading : Bool
  error : Option (List Char)
  showWebView : Bool
deriving DecidableEq

/-- The screen's `handleNavigationStateChange`: when the callback's address
differs from the current Destination, set the input-field text to it;
otherwise do nothing. -/
def handleNavigationStateChange (navUrl : List Char) (st : ScreenState) :
    ScreenState :=
  if navUrl ≠ st.currentUrl then { st with url := navUrl } else st

/-! ## Helper lemmas -/

theorem dropWhile_eq_self_of_none {p : Char → Bool} {s : List Char}
    (h : ∀ c ∈ s, p c = false) : s.dropWhile p = s := by
  cases s with
  | nil => rfl
  | cons c cs => simp [List.dropWhile_cons, h c (List.mem_cons_self c cs)]

/-- A string with no whitespace character is its own trim. -/
theorem jsTrim_eq_self {s : List Char}
    (h : ∀ c ∈ s, isJsWhitespace c = false) : jsTrim s = s := by
  unfold jsTrim
  rw [dropWhile_eq_self_of_none h, dropWhile_eq_self_of_none, List.reverse_reverse]
  intro c hc
  exact h c (List.mem_reverse.mp hc)

theorem charsPre_append (p r : List Char) : charsPre p (p ++ r) = true := by
  induction p with
  | nil => rfl
  | cons a as ih => simp [charsPre, ih]

/-- The Bool search condition of the source, in the spec's words. -/
theorem searchCond_iff (t : List Char) :
    searchCond t = true ↔
      ('.' ∉ t ∨ (' ' ∈ t ∧ 1 < (t.splitOn ' ').length)) := by
  simp [searchCond, List.elem_iff]

theorem flatten_replicate_nil {α : Type} (n : Nat) :
    (List.replicate n ([] : List α)).flatten = [] := by
  induction n with
  | zero => rfl
  | succ k ih => simp [List.replicate_succ, ih]

/-! ## C1: the search-vs-address classification -/

/-- C1.  For every input with a non-empty trim, `formatUrl` routes the input
to the search branch exactly when the trimmed input contains no `.`, or
contains a space and splits into more than one space-delimited piece; the
input `"a.b c"` is classified as a search query, and a trimmed input with a
dot but no space is classified as an address. -/
theorem classifyUrl_search_iff :
    (∀ s : List Char, jsTrim s ≠ [] →
      (classifyUrl s = .search ↔
        ('.' ∉ jsTrim s ∨
          (' ' ∈ jsTrim s ∧ 1 < ((jsTrim s).splitOn ' ').length)))) ∧
    classifyUrl "a.b c".toList = .search ∧
    (∀ s : List Char, jsTrim s ≠ [] → '.' ∈ jsTrim s → ' ' ∉ jsTrim s →
      classifyUrl s = .address) := by
  refine ⟨fun s h => ?_, by decide, fun s h hdot hsp => ?_⟩
  · rw [← searchCond_iff]
    unfold classifyUrl
    simp only [if_neg h]
    by_cases hc : searchCond (jsTrim s) <;> simp [hc]
  · unfold classifyUrl
    rw [if_neg h, if_neg]
    rw [searchCond_iff]
    push_neg
    exact ⟨hdot, fun hs => absurd hs hsp⟩

theorem classifyUrl_search_iff_witness :
    jsTrim "a.b".toList ≠ [] ∧ classifyUrl "a.b".toList = UrlClass.address :=
  ⟨by decide,
    classifyUrl_search_iff.2.2 "a.b".toList (by decide) (by decide) (by decide)⟩

/-! ## C7: retry from the errored state -/

/-- C7.  From an `errored` load state, the Try Again action yields exactly
the state with the error cleared, the loading flag set, and the address
unchanged; that state presents the `loading` LoadState. -/
theorem retry_from_errored (st : WebViewState) (msg : List Char)
    (_h : loadStateOf st = .errored msg) :
    webViewStep st .retryClick =
      { loading := true, error := none, currentUrl := st.currentUrl } ∧
    loadStateOf (webViewStep st .retryClick) = .loading := by
  refine ⟨rfl, ?_⟩
  simp [webViewStep, loadStateOf]

theorem retry_from_errored_witness :
    loadStateOf ⟨false, some webErrorMessage, "https://openai.com".toList⟩ =
      LoadState.errored webErrorMessage ∧
    loadStateOf
        (webViewStep ⟨false, some webErrorMessage, "https://openai.com".toList⟩
          .retryClick) = LoadState.loading :=
  ⟨rfl,
    (retry_from_errored ⟨false, some webErrorMessage, "https://openai.com".toList⟩
      webErrorMessage rfl).2⟩

/-! ## C8: late navigation callbacks -/

/-- C8 counterexample.  A navigation callback whose address differs from the
current Destination is not ignored: it changes the screen state (the
input-field text). -/
theorem navChange_not_ignored :
    "https://b.com".toList ≠
      (ScreenState.mk "https://a.com".toList "https://a.com".toList false none
        true).currentUrl ∧
    handleNavigationStateChange "https://b.com".toList
        (ScreenState.mk "https://a.com".toList "https://a.com".toList false none
          true) ≠
      ScreenState.mk "https://a.com".toList "https://a.com".toList false none
        true := by
  constructor
  · decide
  · intro h
    have := congrArg ScreenState.url h
    revert this
    decide

/-- C8 amended.  A navigation callback never changes the Destination, the
loading flag, the error, or the view visibility; its only effect is on the
input-field text, which it sets to the callback's address exactly when that
address differs from the current Destination. -/
theorem navChange_only_updates_inputField (navUrl : List Char)
    (st : ScreenState) :
    handleNavigationStateChange navUrl st =
      (if navUrl = st.currentUrl then st else { st with url := navUrl }) ∧
    (handleNavigationStateChange navUrl st).currentUrl = st.currentUrl ∧
    (handleNavigationStateChange navUrl st).loading = st.loading ∧
    (handleNavigationStateChange navUrl st).error = st.error ∧
    (handleNavigationStateChange navUrl st).showWebView = st.showWebView := by
  unfold handleNavigationStateChange
  by_cases h : navUrl = st.currentUrl <;> simp [h]

/-! ## C3: the address branch -/

theorem schemeHttps_chars : schemeHttps = ['h','t','t','p','s',':','/','/'] := by
  decide

theorem schemeHttp_chars : schemeHttp = ['h','t','t','p',':','/','/'] := by
  decide

theorem stripHttpScheme_https (r : List Char) :
    stripHttpScheme (schemeHttps ++ r) = r := by
  unfold stripHttpScheme
  rw [if_pos (charsPre_append schemeHttps r)]
  rw [show (8 : Nat) = schemeHttps.length from rfl, List.drop_left]

theorem stripHttpScheme_http (r : List Char) :
    stripHttpScheme (schemeHttp ++ r) = r := by
  unfold stripHttpScheme
  rw [if_neg, if_pos (charsPre_append schemeHttp r)]
  · rw [show (7 : Nat) = schemeHttp.length from rfl, List.drop_left]
  · simp [schemeHttps_chars, schemeHttp_chars, charsPre]

theorem stripHttpScheme_of_no_scheme (t : List Char)
    (h1 : charsPre schemeHttps t = false) (h2 : charsPre schemeHttp t = false) :
    stripHttpScheme t = t := by
  unfold stripHttpScheme
  rw [if_neg, if_neg] <;> simp [h1, h2]

/-- Being routed to the address branch means: non-empty trim and a false
search condition. -/
theorem classifyUrl_address_iff (s : List Char) :
    classifyUrl s = .address ↔
      (jsTrim s ≠ [] ∧ searchCond (jsTrim s) = false) := by
  unfold classifyUrl
  by_cases h : jsTrim s = [] <;> simp [h]

/-- An empty-classified input yields the empty destination. -/
theorem formatUrl_of_empty (s : List Char) (h : classifyUrl s = .empty) :
    formatUrl s = [] := by
  unfold classifyUrl at h
  unfold formatUrl
  by_cases he : jsTrim s = []
  · rw [if_pos he]
  · rw [if_neg he] at h
    by_cases hc : searchCond (jsTrim s) = true <;> simp [hc] at h

/-- A search-classified input yields the search endpoint with the
percent-encoded trimmed input appended. -/
theorem formatUrl_of_search (s : List Char) (h : classifyUrl s = .search) :
    formatUrl s = searchUrlBase ++ encodeURIComponent (jsTrim s) := by
  unfold classifyUrl at h
  by_cases he : jsTrim s = []
  · rw [if_pos he] at h
    exact absurd h (by simp)
  · rw [if_neg he] at h
    by_cases hc : searchCond (jsTrim s) = true
    · unfold formatUrl
      rw [if_neg he, if_pos hc]
    · simp [hc] at h

/-- The address branch of `formatUrl`, written out. -/
theorem formatUrl_of_address (s : List Char) (h : classifyUrl s = .address) :
    formatUrl s =
      (if charsSub schemeMark (stripHttpScheme (jsTrim s)) = true then
        stripHttpScheme (jsTrim s)
      else schemeHttps ++ stripHttpScheme (jsTrim s)) := by
  obtain ⟨hne, hcond⟩ := (classifyUrl_address_iff s).mp h
  unfold formatUrl
  simp only [if_neg hne, hcond]
  rfl

/-- C3.  On address-classified inputs, a leading `http://` or `https://` is
stripped and `https://` is prepended exactly when the remainder contains no
`://`; an address input with a non-http scheme is returned unchanged, an
`http://` input is redefaulted to `https://`, and `"openai.com"` yields
`"https://openai.com"`. -/
theorem formatUrl_address_branch :
    (∀ s : List Char, classifyUrl s = .address →
      formatUrl s =
        (if charsSub schemeMark (stripHttpScheme (jsTrim s)) = true then
          stripHttpScheme (jsTrim s)
        else schemeHttps ++ stripHttpScheme (jsTrim s))) ∧
    (∀ s : List Char, classifyUrl s = .address →
      charsPre schemeHttps (jsTrim s) = false →
      charsPre schemeHttp (jsTrim s) = false →
      charsSub schemeMark (jsTrim s) = true → formatUrl s = jsTrim s) ∧
    (∀ s r : List Char, classifyUrl s = .address → jsTrim s = schemeHttp ++ r →
      charsSub schemeMark r = false → formatUrl s = schemeHttps ++ r) ∧
    formatUrl "openai.com".toList = "https://openai.com".toList ∧
    formatUrl "ftp://a.com".toList = "ftp://a.com".toList ∧
    formatUrl "http://openai.com".toList = "https://openai.com".toList := by
  refine ⟨formatUrl_of_address, fun s h h1 h2 h3 => ?_, fun s r h heq h3 => ?_,
    by decide, by decide, by decide⟩
  · rw [formatUrl_of_address s h, stripHttpScheme_of_no_scheme _ h1 h2, if_pos h3]
  · rw [formatUrl_of_address s h, heq, stripHttpScheme_http, if_neg]
    simp [h3]

theorem formatUrl_address_branch_witness :
    classifyUrl "ftp://a.com".toList = UrlClass.address ∧
    formatUrl "ftp://a.com".toList = jsTrim "ftp://a.com".toList :=
  ⟨by decide,
    formatUrl_address_branch.2.1 "ftp://a.com".toList (by decide) (by decide)
      (by decide) (by decide)⟩

/-! ## C6: idempotence on already-normalized addresses -/

/-- C6 counterexample.  `"https://a.b://"` starts with `https://`, contains a
dot and no space, yet `formatUrl` changes it (the stripped remainder contains
`://`, so `https://` is not prepended back). -/
theorem formatUrl_not_idempotent_cex :
    charsPre schemeHttps "https://a.b://".toList = true ∧
    '.' ∈ "https://a.b://".toList ∧
    ' ' ∉ "https://a.b://".toList ∧
    formatUrl "https://a.b://".toList ≠ "https://a.b://".toList := by
  decide

/-- C6 amended.  For a string of the form `https://r` with a dot in `r`, no
whitespace anywhere, and no further `://` in `r`, `formatUrl` returns the
string unchanged (hence applying it twice equals applying it once). -/
theorem formatUrl_idempotent_on_normalized (s r : List Char)
    (hpre : s = schemeHttps ++ r) (hdot : '.' ∈ r)
    (hws : ∀ c ∈ s, isJsWhitespace c = false)
    (hsep : charsSub schemeMark r = false) :
    formatUrl s = s ∧ formatUrl (formatUrl s) = formatUrl s := by
  subst hpre
  have htrim : jsTrim (schemeHttps ++ r) = schemeHttps ++ r := jsTrim_eq_self hws
  have hres : formatUrl (schemeHttps ++ r) = schemeHttps ++ r := by
    have hne : schemeHttps ++ r ≠ [] := by simp [schemeHttps_chars]
    have hsp : ' ' ∉ schemeHttps ++ r := fun hm => by
      have := hws ' ' hm
      revert this
      decide
    have hcond : searchCond (schemeHttps ++ r) = false := by
      have h1 : (schemeHttps ++ r).contains '.' = true :=
        List.elem_iff.mpr (List.mem_append_right _ hdot)
      have h2 : (schemeHttps ++ r).contains ' ' = false := by
        rw [Bool.eq_false_iff]
        intro hc
        exact hsp (List.elem_iff.mp hc)
      simp only [searchCond, h1, h2, Bool.not_true, Bool.false_and,
        Bool.false_or]
    unfold formatUrl
    simp only [htrim, if_neg hne, hcond, Bool.false_eq_true, if_false,
      stripHttpScheme_https, hsep]
  exact ⟨hres, by rw [hres, hres]⟩

theorem formatUrl_idempotent_on_normalized_witness :
    formatUrl "https://openai.com".toList = "https://openai.com".toList :=
  (formatUrl_idempotent_on_normalized "https://openai.com".toList
    "openai.com".toList (by decide) (by decide) (by decide) (by decide)).1

/-! ## Bridge dispatch computations -/

/-- The `{type: "GOOGLE_AUTH_REQUEST"}` message posted from the trusted
origin. -/
def authRequestEvent : MessageEvent :=
  { origin := trustedOrigin
    data := some { tag := some googleAuthRequestTag, success := none,
                   payload := none } }

/-- A `GOOGLE_AUTH_CALLBACK` message carrying the auth outcome. -/
def authCallbackEvent (origin : List Char) (s : Bool) (d : Option AuthData) :
    MessageEvent :=
  { origin := origin
    data := some { tag := some googleAuthCallbackTag, success := some s,
                   payload := d } }

/-- The `GOOGLE_AUTH_RESPONSE` the bridge posts into the iframe. -/
def authResponseMsg (s : Bool) (d : Option AuthData) : PostedMessage :=
  { tag := googleAuthResponseTag, success := some s, payload := d,
    targetOrigin := trustedOrigin }

theorem requestTag_ne_callbackTag :
    googleAuthRequestTag ≠ googleAuthCallbackTag := by decide

theorem webHandleMessage_req : webHandleMessage authRequestEvent = true := by
  decide

theorem handleCallback_req (lo : List Char) :
    handleCallback lo authRequestEvent = ([], false) := by
  unfold handleCallback authRequestEvent
  by_cases h : trustedOrigin = lo <;>
    simp [h, Option.some.injEq, requestTag_ne_callbackTag]

theorem webHandleMessage_cb (o : List Char) (s : Bool) (d : Option AuthData) :
    webHandleMessage (authCallbackEvent o s d) = false := by
  unfold webHandleMessage authCallbackEvent
  by_cases h : o = trustedOrigin <;>
    simp [h, Option.some.injEq, requestTag_ne_callbackTag.symm]

theorem handleCallback_cb_self (lo : List Char) (s : Bool)
    (d : Option AuthData) :
    handleCallback lo (authCallbackEvent lo s d) =
      ([authResponseMsg s d], true) := by
  simp [handleCallback, authCallbackEvent, authResponseMsg]

theorem handleCallback_other (lo : List Char) (ev : MessageEvent)
    (h : ev.origin ≠ lo) : handleCallback lo ev = ([], false) := by
  unfold handleCallback
  rw [if_neg h]

theorem webHandleMessage_untrusted (ev : MessageEvent)
    (h : ev.origin ≠ trustedOrigin) : webHandleMessage ev = false := by
  unfold webHandleMessage
  rw [if_neg h]

/-- Dispatching a trusted auth request: the auth flow starts once, one new
callback listener is registered, nothing is posted. -/
theorem dispatchMessage_req (lo : List Char) (st : BridgeState) :
    dispatchMessage lo st authRequestEvent =
      ⟨⟨st.pendingCallbacks + 1⟩, 1, []⟩ := by
  simp [dispatchMessage, webHandleMessage_req, handleCallback_req,
    flatten_replicate_nil]

/-- Dispatching an auth callback from the embedding page's own origin: every
registered callback listener posts one response and is removed. -/
theorem dispatchMessage_cb_self (lo : List Char) (st : BridgeState) (s : Bool)
    (d : Option AuthData) :
    dispatchMessage lo st (authCallbackEvent lo s d) =
      ⟨⟨0⟩, 0,
        (List.replicate st.pendingCallbacks [authResponseMsg s d]).flatten⟩ := by
  unfold dispatchMessage
  rw [webHandleMessage_cb, handleCallback_cb_self]
  simp

/-! ## C4: origin filtering of the bridge -/

/-- C4 counterexample.  The claim fails on both substrates: the native
handler starts the auth flow for a `GOOGLE_AUTH_REQUEST` from an arbitrary
page origin (it never inspects an origin), and on the web substrate a
`GOOGLE_AUTH_CALLBACK` from the embedding page's origin — which is not the
trusted origin — makes a pending callback listener post a message onward. -/
theorem bridge_untrusted_origin_cex :
    ((NativeMessageEvent.mk "https://evil.example".toList
        (some ⟨some googleAuthRequestTag, none, none⟩)).pageOrigin ≠
        trustedOrigin ∧
      nativeHandleMessage
        (NativeMessageEvent.mk "https://evil.example".toList
          (some ⟨some googleAuthRequestTag, none, none⟩)) = true) ∧
    ((authCallbackEvent "https://host.example".toList true none).origin ≠
        trustedOrigin ∧
      (dispatchMessage "https://host.example".toList ⟨1⟩
          (authCallbackEvent "https://host.example".toList true none)).posts ≠
        []) := by
  refine ⟨⟨by decide, by decide⟩, by decide, ?_⟩
  rw [dispatchMessage_cb_self]
  decide

/-- C4 amended.  A message whose origin is neither the trusted origin nor the
embedding page's own origin is dropped silently on the web substrate: no
state change, no auth invocation, no posted message.  The native handler is
origin-blind: its behavior does not depend on the posting page's origin at
all. -/
theorem bridge_drop_unknown_origin :
    (∀ (lo : List Char) (st : BridgeState) (ev : MessageEvent),
      ev.origin ≠ trustedOrigin → ev.origin ≠ lo →
      dispatchMessage lo st ev = ⟨st, 0, []⟩) ∧
    (∀ (o o2 : List Char) (pd : Option MessageData),
      nativeHandleMessage ⟨o, pd⟩ = nativeHandleMessage ⟨o2, pd⟩) := by
  constructor
  · intro lo st ev h1 h2
    obtain ⟨n⟩ := st
    simp [dispatchMessage, webHandleMessage_untrusted ev h1,
      handleCallback_other lo ev h2, flatten_replicate_nil]
  · intro o o2 pd
    cases pd <;> rfl

theorem bridge_drop_unknown_origin_witness :
    dispatchMessage "https://host.example".toList ⟨0⟩
        ⟨"https://evil.example".toList,
          some ⟨some googleAuthRequestTag, none, none⟩⟩ =
      ⟨⟨0⟩, 0, []⟩ :=
  bridge_drop_unknown_origin.1 "https://host.example".toList ⟨0⟩
    ⟨"https://evil.example".toList,
      some ⟨some googleAuthRequestTag, none, none⟩⟩
    (by decide) (by decide)

/-! ## C5: the auth request/response scenario -/

/-- C5.  A `GOOGLE_AUTH_REQUEST` from the trusted origin starts the auth flow
exactly once, and the success callback carrying `accessToken "T"` produces
exactly one `GOOGLE_AUTH_RESPONSE` with `success = true` and the same data,
posted into the iframe addressed to the trusted origin — never to the
wildcard target. -/
theorem auth_request_response_scenario (lo : List Char) (d : AuthData)
    (hT : d.accessToken = some "T".toList) :
    dispatchMessages lo ⟨0⟩
        [authRequestEvent, authCallbackEvent lo true (some d)] =
      ⟨⟨0⟩, 1, [authResponseMsg true (some d)]⟩ ∧
    (authResponseMsg true (some d)).targetOrigin = trustedOrigin ∧
    trustedOrigin ≠ wildcardTarget ∧
    ∃ dd, (authResponseMsg true (some d)).payload = some dd ∧
      dd.accessToken = some "T".toList := by
  refine ⟨?_, rfl, by decide, d, rfl, hT⟩
  simp [dispatchMessages, dispatchMessage_req, dispatchMessage_cb_self,
    List.replicate_succ]

theorem auth_request_response_scenario_witness :
    dispatchMessages "https://host.example".toList ⟨0⟩
        [authRequestEvent,
          authCallbackEvent "https://host.example".toList true
            (some ⟨some "T".toList, none, none, none⟩)] =
      ⟨⟨0⟩, 1,
        [authResponseMsg true (some ⟨some "T".toList, none, none, none⟩)]⟩ :=
  (auth_request_response_scenario "https://host.example".toList
    ⟨some "T".toList, none, none, none⟩ rfl).1

/-! ## C9: the callback listener trusts the embedding page's origin -/

/-- C9.  With one pending auth, a `GOOGLE_AUTH_CALLBACK` from
`window.location.origin` — an origin distinct from the trusted origin — is
accepted: its `success` flag and `data` are relayed verbatim as the
`GOOGLE_AUTH_RESPONSE` posted into the iframe; a `GOOGLE_AUTH_CALLBACK` from
any other origin is ignored entirely. -/
theorem callback_trusts_location_origin (lo : List Char) (st : BridgeState)
    (s : Bool) (d : Option AuthData) (_hlo : lo ≠ trustedOrigin)
    (hp : st.pendingCallbacks = 1) :
    dispatchMessage lo st (authCallbackEvent lo s d) =
      ⟨⟨0⟩, 0, [authResponseMsg s d]⟩ ∧
    (∀ o : List Char, o ≠ lo →
      dispatchMessage lo st (authCallbackEvent o s d) = ⟨st, 0, []⟩) := by
  constructor
  · rw [dispatchMessage_cb_self, hp]
    simp
  · intro o ho
    obtain ⟨n⟩ := st
    simp [dispatchMessage, webHandleMessage_cb,
      handleCallback_other lo (authCallbackEvent o s d) ho,
      flatten_replicate_nil]

theorem callback_trusts_location_origin_witness :
    dispatchMessage "https://host.example".toList ⟨1⟩
        (authCallbackEvent "https://host.example".toList true none) =
      ⟨⟨0⟩, 0, [authResponseMsg true none]⟩ :=
  (callback_trusts_location_origin "https://host.example".toList ⟨1⟩ true none
    (by decide) rfl).1

/-! ## C10: a pending auth request does not block a second one -/

/-- C10.  Two trusted `GOOGLE_AUTH_REQUEST`s before any callback leave two
callback listeners registered (the auth flow started twice), and a single
subsequent `GOOGLE_AUTH_CALLBACK` then posts two `GOOGLE_AUTH_RESPONSE`
messages into the iframe. -/
theorem double_auth_request_double_response (lo : List Char) (s : Bool)
    (d : Option AuthData) :
    (dispatchMessages lo ⟨0⟩ [authRequestEvent, authRequestEvent]).state =
      ⟨2⟩ ∧
    dispatchMessages lo ⟨0⟩
        [authRequestEvent, authRequestEvent, authCallbackEvent lo s d] =
      ⟨⟨0⟩, 2, [authResponseMsg s d, authResponseMsg s d]⟩ := by
  constructor <;>
    simp [dispatchMessages, dispatchMessage_req, dispatchMessage_cb_self,
      List.replicate_succ]

/-! ## C2: the search branch and the percent-encoding round trip -/

theorem char_toNat_valid (c : Char) :
    c.toNat < 55296 ∨ (57343 < c.toNat ∧ c.toNat < 1114112) := by
  have he : c.toNat = c.val.toNat := rfl
  rw [he]
  rcases c.valid with h | h
  · left
    omega
  · right
    omega

theorem char_toNat_lt (c : Char) : c.toNat < 1114112 := by
  rcases char_toNat_valid c with h | h <;> omega

theorem toNat_ofNat_of_valid {n : Nat} (h : n.isValidChar) :
    (Char.ofNat n).toNat = n := by
  unfold Char.ofNat
  rw [dif_pos h]
  rfl

theorem utf8EncodeChar_lt_256 (c : Char) : ∀ b ∈ utf8EncodeChar c, b < 256 := by
  intro b hb
  have h := char_toNat_lt c
  unfold utf8EncodeChar at hb
  split_ifs at hb with h1 h2 h3
  · rw [List.mem_singleton] at hb
    omega
  · rcases List.mem_cons.mp hb with rfl | hb
    · omega
    rw [List.mem_singleton] at hb
    omega
  · rcases List.mem_cons.mp hb with rfl | hb
    · omega
    rcases List.mem_cons.mp hb with rfl | hb
    · omega
    rw [List.mem_singleton] at hb
    omega
  · rcases List.mem_cons.mp hb with rfl | hb
    · omega
    rcases List.mem_cons.mp hb with rfl | hb
    · omega
    rcases List.mem_cons.mp hb with rfl | hb
    · omega
    rw [List.mem_singleton] at hb
    omega

theorem hexCharVal_hexDigitChar : ∀ n < 16, hexCharVal (hexDigitChar n) = some n := by
  decide

/-- Percent-decoding inverts the byte encoder, one byte at a time. -/
theorem percentDecodeBytes_encodeByte (b : Nat) (hb : b < 256) (cs : List Char) :
    percentDecodeBytes (percentEncodeByte b ++ cs) =
      (percentDecodeBytes cs).map fun bs => b :: bs := by
  unfold percentEncodeByte
  split_ifs with h
  · rw [Bool.and_eq_true, decide_eq_true_eq] at h
    obtain ⟨hb128, hunres⟩ := h
    have hvalid : Nat.isValidChar b := Or.inl (by omega)
    have htn : (Char.ofNat b).toNat = b := toNat_ofNat_of_valid hvalid
    have hnp : ¬ Char.ofNat b = '%' := by
      intro hEq
      rw [hEq] at hunres
      revert hunres
      decide
    have henc : utf8EncodeChar (Char.ofNat b) = [b] := by
      unfold utf8EncodeChar
      rw [htn, if_pos (by omega)]
    rw [List.singleton_append]
    conv_lhs => rw [percentDecodeBytes.eq_def]
    simp only [if_neg hnp, henc, List.singleton_append]
  · have h16 : b / 16 < 16 := by omega
    have h16' : b % 16 < 16 := by omega
    have hsum : 16 * (b / 16) + b % 16 = b := by omega
    rw [List.cons_append, List.cons_append, List.singleton_append]
    conv_lhs => rw [percentDecodeBytes]
    rw [if_pos rfl]
    simp only [hexCharVal_hexDigitChar _ h16, hexCharVal_hexDigitChar _ h16',
      hsum]

/-- Percent-decoding inverts the byte encoder on a whole byte list. -/
theorem percentDecodeBytes_encodeBytes (bs : List Nat)
    (h : ∀ b ∈ bs, b < 256) (cs : List Char) :
    percentDecodeBytes (bs.flatMap percentEncodeByte ++ cs) =
      (percentDecodeBytes cs).map fun l => bs ++ l := by
  induction bs with
  | nil => simp
  | cons b bs ih =>
    rw [List.flatMap_cons, List.append_assoc,
      percentDecodeBytes_encodeByte b (h b (List.mem_cons_self b bs)) _,
      ih fun x hx => h x (List.mem_cons_of_mem b hx), Option.map_map]
    rfl

/-- The percent-decoding phase turns an encoded string back into the UTF-8
bytes of the original. -/
theorem percentDecodeBytes_encodeURIComponent (s : List Char) :
    percentDecodeBytes (encodeURIComponent s) =
      some (s.flatMap utf8EncodeChar) := by
  have general : ∀ cs : List Char,
      percentDecodeBytes (encodeURIComponent s ++ cs) =
        (percentDecodeBytes cs).map fun l => s.flatMap utf8EncodeChar ++ l := by
    induction s with
    | nil => simp [encodeURIComponent]
    | cons c s ih =>
      intro cs
      show percentDecodeBytes
          (((utf8EncodeChar c).flatMap percentEncodeByte ++
            encodeURIComponent s) ++ cs) = _
      rw [List.append_assoc,
        percentDecodeBytes_encodeBytes _ (utf8EncodeChar_lt_256 c) _, ih cs,
        Option.map_map]
      simp only [List.flatMap_cons, List.append_assoc]
      rfl
  have h0 := general []
  rw [List.append_nil] at h0
  rw [h0]
  show Option.map _ (some []) = _
  simp

theorem utf8DecodeAux_ascii (b : Nat) (bs : List Nat) (h : b < 128) :
    utf8DecodeAux 0 0 0 (b :: bs) =
      (utf8DecodeAux 0 0 0 bs).map fun cs => Char.ofNat b :: cs := by
  conv_lhs => rw [utf8DecodeAux]
  rw [if_pos h]

theorem utf8DecodeAux_last (acc minv b : Nat) (bs : List Nat)
    (hc : 128 ≤ b ∧ b < 192)
    (hv : minv ≤ acc * 64 + (b - 128) ∧
      (acc * 64 + (b - 128) < 55296 ∨ 57343 < acc * 64 + (b - 128)) ∧
      acc * 64 + (b - 128) < 1114112) :
    utf8DecodeAux 1 acc minv (b :: bs) =
      (utf8DecodeAux 0 0 0 bs).map fun cs =>
        Char.ofNat (acc * 64 + (b - 128)) :: cs := by
  conv_lhs => rw [utf8DecodeAux]
  rw [if_pos hc, if_pos hv]

theorem utf8DecodeAux_cont2 (acc minv b : Nat) (bs : List Nat)
    (hc : 128 ≤ b ∧ b < 192) :
    utf8DecodeAux 2 acc minv (b :: bs) =
      utf8DecodeAux 1 (acc * 64 + (b - 128)) minv bs := by
  conv_lhs => rw [utf8DecodeAux]
  rw [if_pos hc]

theorem utf8DecodeAux_cont3 (acc minv b : Nat) (bs : List Nat)
    (hc : 128 ≤ b ∧ b < 192) :
    utf8DecodeAux 3 acc minv (b :: bs) =
      utf8DecodeAux 2 (acc * 64 + (b - 128)) minv bs := by
  conv_lhs => rw [utf8DecodeAux]
  rw [if_pos hc]

theorem utf8DecodeAux_lead2 (b : Nat) (bs : List Nat) (h1 : ¬ b < 128)
    (h2 : ¬ b < 192) (h3 : b < 224) :
    utf8DecodeAux 0 0 0 (b :: bs) = utf8DecodeAux 1 (b - 192) 128 bs := by
  conv_lhs => rw [utf8DecodeAux]
  rw [if_neg h1, if_neg h2, if_pos h3]

theorem utf8DecodeAux_lead3 (b : Nat) (bs : List Nat) (h1 : ¬ b < 128)
    (h2 : ¬ b < 192) (h3 : ¬ b < 224) (h4 : b < 240) :
    utf8DecodeAux 0 0 0 (b :: bs) = utf8DecodeAux 2 (b - 224) 2048 bs := by
  conv_lhs => rw [utf8DecodeAux]
  rw [if_neg h1, if_neg h2, if_neg h3, if_pos h4]

theorem utf8DecodeAux_lead4 (b : Nat) (bs : List Nat) (h1 : ¬ b < 128)
    (h2 : ¬ b < 192) (h3 : ¬ b < 224) (h4 : ¬ b < 240) (h5 : b < 248) :
    utf8DecodeAux 0 0 0 (b :: bs) = utf8DecodeAux 3 (b - 240) 65536 bs := by
  conv_lhs => rw [utf8DecodeAux]
  rw [if_neg h1, if_neg h2, if_neg h3, if_neg h4, if_pos h5]

/-- The UTF-8 decoder inverts the character encoder, one character at a
time. -/
theorem utf8DecodeAux_encodeChar (c : Char) (bs : List Nat) :
    utf8DecodeAux 0 0 0 (utf8EncodeChar c ++ bs) =
      (utf8DecodeAux 0 0 0 bs).map fun cs => c :: cs := by
  have hv := char_toNat_valid c
  unfold utf8EncodeChar
  split_ifs with h1 h2 h3
  · rw [List.singleton_append, utf8DecodeAux_ascii _ _ (by omega),
      Char.ofNat_toNat]
  · rw [List.cons_append, List.singleton_append,
      utf8DecodeAux_lead2 _ _ (by omega) (by omega) (by omega),
      utf8DecodeAux_last _ _ _ _ (by omega) (by constructor <;> omega)]
    have hm : (192 + c.toNat / 64 - 192) * 64 + (128 + c.toNat % 64 - 128) =
        c.toNat := by omega
    rw [hm, Char.ofNat_toNat]
  · have hsur : c.toNat < 55296 ∨ 57343 < c.toNat := by
      rcases hv with hv | hv
      · left
        omega
      · right
        omega
    have hm : ((224 + c.toNat / 4096 - 224) * 64 +
        (128 + c.toNat / 64 % 64 - 128)) * 64 + (128 + c.toNat % 64 - 128) =
        c.toNat := by omega
    rw [List.cons_append, List.cons_append, List.singleton_append,
      utf8DecodeAux_lead3 _ _ (by omega) (by omega) (by omega) (by omega),
      utf8DecodeAux_cont2 _ _ _ _ (by omega),
      utf8DecodeAux_last _ _ _ _ (by omega) (by rw [hm]; exact ⟨by omega, hsur, by omega⟩),
      hm, Char.ofNat_toNat]
  · have hlt : c.toNat < 1114112 := char_toNat_lt c
    have hm : (((240 + c.toNat / 262144 - 240) * 64 +
        (128 + c.toNat / 4096 % 64 - 128)) * 64 +
        (128 + c.toNat / 64 % 64 - 128)) * 64 + (128 + c.toNat % 64 - 128) =
        c.toNat := by omega
    rw [List.cons_append, List.cons_append, List.cons_append,
      List.singleton_append,
      utf8DecodeAux_lead4 _ _ (by omega) (by omega) (by omega) (by omega)
        (by omega),
      utf8DecodeAux_cont3 _ _ _ _ (by omega),
      utf8DecodeAux_cont2 _ _ _ _ (by omega),
      utf8DecodeAux_last _ _ _ _ (by omega)
        (by rw [hm]; exact ⟨by omega, by omega, by omega⟩),
      hm, Char.ofNat_toNat]

/-- The UTF-8 decoder inverts the encoder on a whole string. -/
theorem utf8DecodeBytes_encode (s : List Char) :
    utf8DecodeBytes (s.flatMap utf8EncodeChar) = some s := by
  unfold utf8DecodeBytes
  induction s with
  | nil => rfl
  | cons c s ih =>
    rw [List.flatMap_cons, utf8DecodeAux_encodeChar, ih]
    rfl

/-- Percent-decoding inverts `encodeURIComponent` on every string. -/
theorem decodeURIComponent_encodeURIComponent (s : List Char) :
    decodeURIComponent (encodeURIComponent s) = some s := by
  unfold decodeURIComponent
  rw [percentDecodeBytes_encodeURIComponent, Option.some_bind,
    utf8DecodeBytes_encode]

/-- C2.  Every input with a non-empty, dot-free trim is normalized to the
fixed search endpoint with the percent-encoded trimmed input as the query
parameter, and percent-decoding that query parameter recovers exactly the
trimmed input. -/
theorem formatUrl_search_query (s : List Char) (h1 : jsTrim s ≠ [])
    (h2 : '.' ∉ jsTrim s) :
    formatUrl s = searchUrlBase ++ encodeURIComponent (jsTrim s) ∧
    decodeURIComponent (encodeURIComponent (jsTrim s)) = some (jsTrim s) := by
  refine ⟨?_, decodeURIComponent_encodeURIComponent _⟩
  unfold formatUrl
  rw [if_neg h1, if_pos ((searchCond_iff _).mpr (Or.inl h2))]

theorem formatUrl_search_query_witness :
    jsTrim "weather today".toList ≠ [] ∧
    formatUrl "weather today".toList =
      searchUrlBase ++ encodeURIComponent (jsTrim "weather today".toList) ∧
    formatUrl "weather today".toList =
      "https://www.google.com/search?q=weather%20today".toList :=
  ⟨by decide,
    (formatUrl_search_query "weather today".toList (by decide) (by decide)).1,
    by decide⟩

end BrowserSpec
